import Mathlib

/-!
Verification development for the Asana sales export pipeline
(`asana_sales_pilot_export_v5_pivots_single_sheet.py`).

The Python source is shallowly embedded: pure functions become Lean
functions, Python floats are modelled as rationals, Python `None` and the
empty string (both falsy in the source's `or`-chains) are modelled with
`Option` and the `""` sentinel where the source treats them identically,
and code that can raise is `Option`-valued.  Unicode-dependent library
calls (`unicodedata.normalize`/`category`, `str.upper`/`lower`) are
modelled by explicit tables over the character repertoire this program
manipulates (ASCII plus the Latin accented letters appearing in its data
and alias tables).  The external `dateutil` parser is kept abstract as a
function parameter wherever possible; where a concrete instance is needed
it is modelled from the spec and marked as such.
-/

/-- Boolean list membership, mirroring the Python `in` operator on sets/lists. -/
def memb {α : Type} [DecidableEq α] (x : α) : List α → Bool
  | [] => false
  | a :: t => if a = x then true else memb x t

/-- Association-list lookup, mirroring Python dict lookup (`d[k]`, `k in d`). -/
def alook {α β : Type} [DecidableEq α] (k : α) : List (α × β) → Option β
  | [] => none
  | p :: t => if p.1 = k then some p.2 else alook k t

/-- Does the first list occur as a prefix of the second? -/
def startsWithL : List Char → List Char → Bool
  | [], _ => true
  | _ :: _, [] => false
  | p :: ps, c :: cs => if p = c then startsWithL ps cs else false

/-- Does `needle` occur as a contiguous sublist of the second list? -/
def containsL (needle : List Char) : List Char → Bool
  | [] => startsWithL needle []
  | c :: t => if startsWithL needle (c :: t) then true else containsL needle t

/-- Python substring test `needle in hay`. -/
def strContains (needle hay : String) : Bool := containsL needle.data hay.data

/-- The whitespace characters recognised by Python `str.strip` / `\s`
(space, tab, newline, carriage return, vertical tab, form feed). -/
def wsChars : List Char := [' ', '\t', '\n', '\r', Char.ofNat 11, Char.ofNat 12]

/-- Whitespace predicate used for stripping and splitting. -/
def pyWs (c : Char) : Bool := memb c wsChars

/-- Drop characters satisfying `p` from both ends of a list. -/
def trimBy (p : Char → Bool) (l : List Char) : List Char :=
  ((l.dropWhile p).reverse.dropWhile p).reverse

/-- Trim whitespace from both ends. -/
def trimWs (l : List Char) : List Char := trimBy pyWs l

/-- Python `str.strip()` (no argument): remove leading/trailing whitespace. -/
def pyStrip (s : String) : String := ⟨trimWs s.data⟩

/-- Python `str.strip(chars)`: remove all leading/trailing characters in `cs`. -/
def pyStripChars (cs : List Char) (s : String) : String :=
  ⟨trimBy (fun c => memb c cs) s.data⟩

/-- Accumulator for whitespace splitting. -/
def splitWsAux : List Char → List Char → List String
  | [], acc => if acc = [] then [] else [⟨acc.reverse⟩]
  | c :: t, acc =>
    if pyWs c then
      (if acc = [] then splitWsAux t [] else (⟨acc.reverse⟩ : String) :: splitWsAux t [])
    else splitWsAux t (c :: acc)

/-- Python `str.split()` with no argument: split on whitespace runs, no empties. -/
def pySplitWs (s : String) : List String := splitWsAux s.data []

/-- Python truthiness-based `a or b` on strings (empty string is falsy). -/
def pyOr (a b : String) : String := if a = "" then b else a

/-! Unicode model: `unicodedata.normalize("NFD", ...)`, the `Mn` category and
`str.upper`/`str.lower`, tabulated over the character repertoire used by the
program (ASCII letters plus Latin letters with acute, grave, tilde, diaeresis
and cedilla). -/

/-- Combining grave accent U+0300. -/
def chGrave : Char := Char.ofNat 768

/-- Combining acute accent U+0301. -/
def chAcute : Char := Char.ofNat 769

/-- Combining tilde U+0303. -/
def chTilde : Char := Char.ofNat 771

/-- Combining diaeresis U+0308. -/
def chDiaer : Char := Char.ofNat 776

/-- Combining cedilla U+0327. -/
def chCedil : Char := Char.ofNat 807

/-- The combining marks (Unicode category `Mn`) in the modelled repertoire. -/
def marksList : List Char := [chGrave, chAcute, chTilde, chDiaer, chCedil]

/-- Is the character a combining mark (`unicodedata.category(ch) == "Mn"`)? -/
def isMn (c : Char) : Bool := memb c marksList

/-- NFD decompositions of the precomposed letters in the modelled repertoire. -/
def nfdTable : List (Char × List Char) := [
  ('á', ['a', chAcute]), ('é', ['e', chAcute]), ('í', ['i', chAcute]),
  ('ó', ['o', chAcute]), ('ú', ['u', chAcute]),
  ('Á', ['A', chAcute]), ('É', ['E', chAcute]), ('Í', ['I', chAcute]),
  ('Ó', ['O', chAcute]), ('Ú', ['U', chAcute]),
  ('à', ['a', chGrave]), ('è', ['e', chGrave]), ('ì', ['i', chGrave]),
  ('ò', ['o', chGrave]), ('ù', ['u', chGrave]),
  ('À', ['A', chGrave]), ('È', ['E', chGrave]), ('Ì', ['I', chGrave]),
  ('Ò', ['O', chGrave]), ('Ù', ['U', chGrave]),
  ('ñ', ['n', chTilde]), ('Ñ', ['N', chTilde]),
  ('ü', ['u', chDiaer]), ('Ü', ['U', chDiaer]),
  ('ç', ['c', chCedil]), ('Ç', ['C', chCedil])]

/-- NFD decomposition of one character (identity outside the table). -/
def nfdChar (c : Char) : List Char :=
  match alook c nfdTable with
  | some l => l
  | none => [c]

/-- Upper-case mapping of `str.upper` over the modelled repertoire. -/
def pyUpperTable : List (Char × Char) := [
  ('a', 'A'), ('b', 'B'), ('c', 'C'), ('d', 'D'), ('e', 'E'), ('f', 'F'),
  ('g', 'G'), ('h', 'H'), ('i', 'I'), ('j', 'J'), ('k', 'K'), ('l', 'L'),
  ('m', 'M'), ('n', 'N'), ('o', 'O'), ('p', 'P'), ('q', 'Q'), ('r', 'R'),
  ('s', 'S'), ('t', 'T'), ('u', 'U'), ('v', 'V'), ('w', 'W'), ('x', 'X'),
  ('y', 'Y'), ('z', 'Z'),
  ('á', 'Á'), ('é', 'É'), ('í', 'Í'), ('ó', 'Ó'), ('ú', 'Ú'),
  ('à', 'À'), ('è', 'È'), ('ì', 'Ì'), ('ò', 'Ò'), ('ù', 'Ù'),
  ('ñ', 'Ñ'), ('ü', 'Ü'), ('ç', 'Ç')]

/-- Lower-case mapping of `str.lower` over the modelled repertoire. -/
def pyLowerTable : List (Char × Char) := [
  ('A', 'a'), ('B', 'b'), ('C', 'c'), ('D', 'd'), ('E', 'e'), ('F', 'f'),
  ('G', 'g'), ('H', 'h'), ('I', 'i'), ('J', 'j'), ('K', 'k'), ('L', 'l'),
  ('M', 'm'), ('N', 'n'), ('O', 'o'), ('P', 'p'), ('Q', 'q'), ('R', 'r'),
  ('S', 's'), ('T', 't'), ('U', 'u'), ('V', 'v'), ('W', 'w'), ('X', 'x'),
  ('Y', 'y'), ('Z', 'z'),
  ('Á', 'á'), ('É', 'é'), ('Í', 'í'), ('Ó', 'ó'), ('Ú', 'ú'),
  ('À', 'à'), ('È', 'è'), ('Ì', 'ì'), ('Ò', 'ò'), ('Ù', 'ù'),
  ('Ñ', 'ñ'), ('Ü', 'ü'), ('Ç', 'ç')]

/-- Per-character `str.upper`. -/
def pyUpperChar (c : Char) : Char :=
  match alook c pyUpperTable with
  | some u => u
  | none => c

/-- Per-character `str.lower`. -/
def pyLowerChar (c : Char) : Char :=
  match alook c pyLowerTable with
  | some u => u
  | none => c

/-- Python `str.upper()`. -/
def pyUpperStr (s : String) : String := ⟨s.data.map pyUpperChar⟩

/-- Python `str.lower()`. -/
def pyLowerStr (s : String) : String := ⟨s.data.map pyLowerChar⟩

/-- NFD decomposition of a character list. -/
def nfdExpand : List Char → List Char
  | [] => []
  | c :: t => nfdChar c ++ nfdExpand t

/-- The body of `normalize_upper` (source lines 66-71): NFD-decompose, drop
combining marks, upper-case, strip. -/
def normCore (l : List Char) : List Char :=
  trimWs (((nfdExpand l).filter (fun c => !isMn c)).map pyUpperChar)

/-- Embeds `normalize_upper` (source lines 66-71).  The `if not s` guard
returns the empty string for empty input. -/
def normalize_upper (s : String) : String :=
  if s = "" then "" else ⟨normCore s.data⟩

/-! Constants of the source (lines 23-63). -/

/-- Embeds `COLUMN_STATUS_MAP` (source lines 23-37). -/
def COLUMN_STATUS_MAP : List (String × String) := [
  ("PROBLEMS IN POR...", "Problems"),
  ("PROBLEMS IN PRO...", "Problems"),
  ("RECALL", "Recall"),
  ("STAND BY", "Stand By"),
  ("UNSCHEDULED", "Unscheduled"),
  ("SCHEDULED", "Scheduled"),
  ("REJECT DP. PROPOSAL", "Rejected Proposal"),
  ("WITHOUT PROPOS...", "Without Proposal"),
  ("QUALITY CONTROL", "Quality Control"),
  ("PENDING INVOICE", "Pending Invoice"),
  ("PENDING PAYMENTS", "Pending Payments"),
  ("DONE", "Done"),
  ("CANCELED", "Canceled")]

/-- Embeds `IGNORED_SECTION_TOKENS` (source line 38). -/
def IGNORED_SECTION_TOKENS : List String := ["TRASH", "ARCHIVE"]

/-- The fifteen canonical field keys of `FIELD_ALIASES` (source lines 40-56).
The Python key `type` is named `ctype` here because `type` reads badly in
Lean; everything else keeps the source name. -/
inductive CKey where
  | client | zone | approved_value | invoice_date | paid_flag | paid_date | paid_amount
  | priority | status | canceled_flag | canceled_date | ctype | wo_number
  | materials_cost | labor_cost
deriving DecidableEq, Repr

/-- Embeds `FIELD_ALIASES` (source lines 40-56); the Python sets become lists
(only membership and existential traversal are used, so order is irrelevant). -/
def FIELD_ALIASES : CKey → List String
  | .client => ["CLIENTE", "CLIENT", "CLIENT NAME", "CLIENTE NOMBRE", "CUSTOMER"]
  | .zone => ["ZONA", "ZONE"]
  | .approved_value =>
    ["VALOR APROBADO", "VALOR TOTAL", "APPROVED AMOUNT", "AMOUNT APPROVED", "APPROVED VALUE"]
  | .invoice_date => ["FECHA DE INVOICE", "FECHA FACTURA", "INVOICE ENVIADO", "INVOICE DATE"]
  | .paid_flag => ["PAGADO", "PAID"]
  | .paid_date => ["FECHA DE PAGO", "PAID DATE"]
  | .paid_amount => ["MONTO PAGADO", "PAGADO (MONTO)", "PAID AMOUNT"]
  | .priority => ["PRIORITY", "PRIORIDAD"]
  | .status => ["STATUS", "ESTADO", "ESTATUS"]
  | .canceled_flag => ["CANCELADA", "CANCELED"]
  | .canceled_date => ["FECHA DE CANCELACION", "FECHA DE CANCELACIÓN", "CANCEL DATE"]
  | .ctype => ["TIPO", "TYPE"]
  | .wo_number => ["WO #", "WO", "WORK ORDER"]
  | .materials_cost => ["GASTO MATERIALES", "MATERIALES", "MATERIAL COST", "COSTO MATERIALES"]
  | .labor_cost =>
    ["GASTO LABOR", "GATOS LABOR", "GASTO MANO DE OBRA", "LABOR COST", "MANO DE OBRA",
     "GASTO LABOUR", "GASTOS LABOR"]

/-- The fixed order in which `extract_fields` tries the canonical keys
(the elif chain of source lines 198-229, same order as the dict literal). -/
def canonicalOrder : List CKey :=
  [.client, .zone, .approved_value, .invoice_date, .paid_flag, .paid_date, .paid_amount,
   .priority, .status, .canceled_flag, .canceled_date, .ctype, .wo_number,
   .materials_cost, .labor_cost]

/-- Embeds `_alias_hit` (source lines 73-79): exact membership first, then
substring containment of any alias in the normalized label. -/
def alias_hit (field_name_norm : String) (alias_set : List String) : Bool :=
  if memb field_name_norm alias_set then true
  else alias_set.any (fun a => strContains a field_name_norm)

/-- The canonical key the elif chain of `extract_fields` (source lines
198-229) assigns to a raw field whose normalized label is `n`:
the nested-if structure mirrors the source chain literally. -/
def assigned_key (n : String) : Option CKey :=
  if alias_hit n (FIELD_ALIASES .client) then some .client
  else if alias_hit n (FIELD_ALIASES .zone) then some .zone
  else if alias_hit n (FIELD_ALIASES .approved_value) then some .approved_value
  else if alias_hit n (FIELD_ALIASES .invoice_date) then some .invoice_date
  else if alias_hit n (FIELD_ALIASES .paid_flag) then some .paid_flag
  else if alias_hit n (FIELD_ALIASES .paid_date) then some .paid_date
  else if alias_hit n (FIELD_ALIASES .paid_amount) then some .paid_amount
  else if alias_hit n (FIELD_ALIASES .priority) then some .priority
  else if alias_hit n (FIELD_ALIASES .status) then some .status
  else if alias_hit n (FIELD_ALIASES .canceled_flag) then some .canceled_flag
  else if alias_hit n (FIELD_ALIASES .canceled_date) then some .canceled_date
  else if alias_hit n (FIELD_ALIASES .ctype) then some .ctype
  else if alias_hit n (FIELD_ALIASES .wo_number) then some .wo_number
  else if alias_hit n (FIELD_ALIASES .materials_cost) then some .materials_cost
  else if alias_hit n (FIELD_ALIASES .labor_cost) then some .labor_cost
  else none

/-- Embeds `zone_from_project` (source lines 111-113):
`project_name.split()[-1].strip(",")`.  The result is `none` exactly when the
Python indexing `[-1]` would raise `IndexError` (a non-empty name consisting
only of whitespace); the Python `strip(",")` removes ALL leading and trailing
commas. -/
def zone_from_project (project_name : String) : Option String :=
  if project_name = "" then some ""
  else
    match (pySplitWs project_name).getLast? with
    | some tok => some (pyStripChars [','] tok)
    | none => none

/-! Money parser (source lines 115-133). -/

/-- ASCII digit test. -/
def isAsciiDigit (c : Char) : Bool := 48 ≤ c.toNat && c.toNat ≤ 57

/-- ASCII alphanumeric test (the regex class `[A-Za-z0-9]`). -/
def isAsciiAlnum (c : Char) : Bool :=
  (48 ≤ c.toNat && c.toNat ≤ 57) || (65 ≤ c.toNat && c.toNat ≤ 90) ||
    (97 ≤ c.toNat && c.toNat ≤ 122)

/-- Numeric value of a digit list (most significant first). -/
def digitsToNat (l : List Char) : Nat := l.foldl (fun a c => a * 10 + (c.toNat - 48)) 0

/-- The characters kept by the substitution `re.sub(r"[^\\d,.\\-]", "", s)` of
source line 118.  The pattern is a RAW Python string, so `\\d` is an escaped
backslash followed by a literal `d` — the negated class keeps only backslash,
`d`, comma, period and minus, NOT the digit class the surrounding code
expects. -/
def moneyKeep : List Char := ['\\', 'd', ',', '.', '-']

/-- Models Python `float(str)` for the inputs reachable from
`_try_parse_money`: optional sign, then digits with at most one decimal
point and at least one digit, with surrounding whitespace ignored
(exponents, `inf`/`nan` and digit underscores cannot survive the
character filter and are not modelled). -/
def pyFloatTail (sgn : Rat) (l2 : List Char) : Option Rat :=
  let ip := l2.takeWhile isAsciiDigit
  match l2.drop ip.length with
  | [] => if ip = [] then none else some (sgn * (digitsToNat ip : Rat))
  | '.' :: fp =>
    if fp.all isAsciiDigit && !(ip = [] && fp = []) then
      some (sgn * ((digitsToNat ip : Rat) + (digitsToNat fp : Rat) / ((10 : Rat) ^ fp.length)))
    else none
  | _ => none

/-- The sign handling of `pyFloat`: an optional leading sign, then the
mantissa via `pyFloatTail`. -/
def pyFloat (s : String) : Option Rat :=
  match trimWs s.data with
  | '-' :: t => pyFloatTail (-1) t
  | '+' :: t => pyFloatTail 1 t
  | l => pyFloatTail 1 l

/-- Embeds `_try_parse_money` (source lines 115-133).  Exceptions from
`float` become `none`; the `except: pass` of the first branch falls through
to the final `float(s)` attempt (the second branch's condition is then
necessarily false). -/
def try_parse_money (raw : String) : Option Rat :=
  if raw = "" then none
  else
    let s0 := pyUpperStr (pyStrip raw)
    let s : String := ⟨s0.data.filter (fun c => memb c moneyKeep)⟩
    if s = "" then none
    else if strContains (",") s && strContains (".") s then
      match pyFloat ⟨s.data.filter (fun c => !(c = ','))⟩ with
      | some v => some v
      | none => pyFloat s
    else if strContains (",") s && !strContains (".") s then
      match pyFloat ⟨s.data.map (fun c => if c = ',' then '.' else c)⟩ with
      | some v => some v
      | none => pyFloat s
    else pyFloat s

/-! Date handling (source lines 135-148 and the timestamp/cutoff parsing
inside `build_dataframe`). -/

/-- A calendar date (the result of `datetime.date`). -/
structure SDate where
  y : Nat
  m : Nat
  d : Nat
deriving DecidableEq, Repr

/-- Strict date order `d1 < d2` used by the cutoff comparison. -/
def dlt (a b : SDate) : Bool :=
  Nat.blt a.y b.y ||
    (Nat.beq a.y b.y && (Nat.blt a.m b.m || (Nat.beq a.m b.m && Nat.blt a.d b.d)))

/-- Two-digit zero-padded decimal rendering. -/
def natPad2 (n : Nat) : String := if n < 10 then "0" ++ toString n else toString n

/-- Four-digit zero-padded decimal rendering. -/
def natPad4 (n : Nat) : String :=
  if n < 10 then "000" ++ toString n
  else if n < 100 then "00" ++ toString n
  else if n < 1000 then "0" ++ toString n
  else toString n

/-- `strftime("%m/%d/%Y")`. -/
def fmtDate (d : SDate) : String := natPad2 d.m ++ "/" ++ natPad2 d.d ++ "/" ++ natPad4 d.y

/-- `strftime("%Y-%m")`. -/
def fmtYYYYMM (d : SDate) : String := natPad4 d.y ++ "-" ++ natPad2 d.m

/-- Gregorian leap-year rule. -/
def isLeap (y : Nat) : Bool := y % 4 == 0 && (y % 100 != 0 || y % 400 == 0)

/-- Days in a month, as validated by `datetime`. -/
def daysInMonth (y m : Nat) : Nat :=
  if m == 2 then (if isLeap y then 29 else 28)
  else if m == 4 || m == 6 || m == 9 || m == 11 then 30
  else 31

/-- Numeric value of two digit characters. -/
def digit2 (a b : Char) : Nat := (a.toNat - 48) * 10 + (b.toNat - 48)

/-- The `%m` component of `strptime`: the regex `1[0-2]|0[1-9]|[1-9]`,
preferring the two-digit alternatives (backtracking to one digit can never
rescue a failed parse here, so the preference is deterministic). -/
def splitMonth : List Char → Option (Nat × List Char)
  | a :: b :: t =>
    if isAsciiDigit a && isAsciiDigit b && (a == '0' || a == '1') &&
        decide (1 ≤ digit2 a b ∧ digit2 a b ≤ 12) then some (digit2 a b, t)
    else if isAsciiDigit a && a != '0' then some (a.toNat - 48, b :: t)
    else none
  | [a] => if isAsciiDigit a && a != '0' then some (a.toNat - 48, []) else none
  | [] => none

/-- The `%d` component of `strptime`: the regex `3[01]|[12]\d|0[1-9]|[1-9]`. -/
def splitDay : List Char → Option (Nat × List Char)
  | a :: b :: t =>
    if isAsciiDigit a && isAsciiDigit b && (a == '0' || a == '1' || a == '2' || a == '3') &&
        decide (1 ≤ digit2 a b ∧ digit2 a b ≤ 31) then some (digit2 a b, t)
    else if isAsciiDigit a && a != '0' then some (a.toNat - 48, b :: t)
    else none
  | [a] => if isAsciiDigit a && a != '0' then some (a.toNat - 48, []) else none
  | [] => none

/-- Models `datetime.strptime(s, "%Y-%m-%d")`: exactly four year digits,
month and day per the `_strptime` regexes, the whole string consumed, and
the resulting calendar date valid (`datetime` range starts at year 1). -/
def strptimeYmd (s : String) : Option SDate :=
  match s.data with
  | y1 :: y2 :: y3 :: y4 :: '-' :: rest =>
    if isAsciiDigit y1 && isAsciiDigit y2 && isAsciiDigit y3 && isAsciiDigit y4 then
      match splitMonth rest with
      | some (m, r1) =>
        match r1 with
        | '-' :: r2 =>
          match splitDay r2 with
          | some (d, r3) =>
            let y := digitsToNat [y1, y2, y3, y4]
            if r3 = [] && decide (1 ≤ y) && decide (d ≤ daysInMonth y m) then
              some ⟨y, m, d⟩
            else none
          | none => none
        | _ => none
      | none => none
    else none
  | _ => none

/-- Python `s.split("T", 1)[0]`: the prefix before the first literal `T`
(the whole string when no `T` occurs). -/
def truncT (s : String) : String :=
  if strContains ("T") s then ⟨s.data.takeWhile (fun c => !(c = 'T'))⟩ else s

/-- Embeds `_fmt_mmddyyyy` (source lines 135-148).  The permissive
`dateutil.parser.parse(..., fuzzy=True)` stage is the abstract parameter
`fz`; on its failure the input is truncated at `T` and strict `%Y-%m-%d`
parsing is attempted; on failure of that the TRUNCATED string is returned
(source line 148 returns `s`, which line 144 may have truncated). -/
def fmt_mmddyyyy (fz : String → Option SDate) (val : String) : String :=
  if val = "" then ""
  else
    match fz val with
    | some d => fmtDate d
    | none =>
      let s := truncT val
      match strptimeYmd s with
      | some d => fmtDate d
      | none => s

/-- Split at `/` keeping empty pieces (Python `str.split("/")`). -/
def splitSlashAux : List Char → List Char → List (List Char)
  | [], acc => [acc.reverse]
  | c :: t, acc => if c = '/' then acc.reverse :: splitSlashAux t [] else splitSlashAux t (c :: acc)

/-- US-style `MM/DD/YYYY` date recognition, a helper of the modelled fuzzy
parser below. -/
def parseMDY (s : String) : Option SDate :=
  match splitSlashAux s.data [] with
  | [ms, ds, ys] =>
    if !ms.isEmpty && ms.all isAsciiDigit && decide (ms.length ≤ 2) &&
        !ds.isEmpty && ds.all isAsciiDigit && decide (ds.length ≤ 2) &&
        ys.length == 4 && ys.all isAsciiDigit then
      let m := digitsToNat ms
      let d := digitsToNat ds
      let y := digitsToNat ys
      if decide (1 ≤ m ∧ m ≤ 12 ∧ 1 ≤ d ∧ d ≤ daysInMonth y m ∧ 1 ≤ y) then some ⟨y, m, d⟩
      else none
    else none
  | _ => none

/-- Modelled from the spec: the external `dateutil.parser.parse(..., fuzzy=True)`
collaborator, a permissive human-date parser "tolerant of arbitrary order and
separators".  The model recognizes ISO `YYYY-MM-DD` dates with an optional
`T`-separated time part and US `MM/DD/YYYY` dates, and yields `none` (the
library raises) when no date is recognizable, e.g. on digit-free input. -/
def dateutil_fuzzy (s : String) : Option SDate :=
  match strptimeYmd (truncT s) with
  | some d => some d
  | none => parseMDY s

/-- Embeds `get_fee_pct` (source lines 163-171): upper-case client and type,
then type-specific fraction, else the `ANY` fraction, else `0`. -/
def get_fee_pct (fees_map : List (String × List (String × Rat))) (client ttype : String) : Rat :=
  match alook (pyUpperStr client) fees_map with
  | some sub =>
    match alook (pyUpperStr ttype) sub with
    | some v => v
    | none =>
      match alook ("ANY") sub with
      | some v => v
      | none => 0
  | none => 0

/-! Fallback text miners (source lines 81-108).  The regular expressions are
translated into explicit scanners with the same leftmost-match and
backtracking behaviour on the relevant patterns. -/

/-- Case-insensitive prefix test (ASCII + the modelled accented letters),
the effect of `re.IGNORECASE` on the literal parts of the patterns. -/
def ciStartsWith : List Char → List Char → Bool
  | [], _ => true
  | _ :: _, [] => false
  | p :: ps, c :: cs => if pyLowerChar p = pyLowerChar c then ciStartsWith ps cs else false

/-- Word-character test for `\b` boundaries (`\w`): ASCII alphanumerics,
underscore, and the accented letters of the modelled repertoire. -/
def isWordC (c : Char) : Bool :=
  isAsciiAlnum c || c = '_' || (alook c pyUpperTable).isSome || (alook c pyLowerTable).isSome

/-- The truncation keywords of the miners:
`PRIORITY|MEDIUM|HIGH|LOW|STATUS|ZONE`. -/
def kwList : List (List Char) :=
  [("PRIORITY").data, ("MEDIUM").data, ("HIGH").data, ("LOW").data,
   ("STATUS").data, ("ZONE").data]

/-- Does a truncation keyword, followed by a `\b` boundary, start here? -/
def kwHere (rest : List Char) : Bool :=
  kwList.any (fun kw =>
    ciStartsWith kw rest &&
      (match (rest.drop kw.length).head? with
       | some c => !isWordC c
       | none => true))

/-- The tail `\s*[:\-]\s*([^\r\n]+)` of the client patterns, after the
keyword: skip whitespace, require one of `:`/`-`, and return the remainder
for group capture. -/
def matchSepAfter (l : List Char) : Option (List Char) :=
  match l.dropWhile pyWs with
  | c :: t => if c = ':' || c = '-' then some t else none
  | [] => none

/-- Group capture `\s*([^\r\n]+)`: greedy whitespace skip, then the run of
non-CR/LF characters; when everything left is whitespace, backtracking
leaves exactly the last non-CR/LF character as the capture. -/
def captureLine (r : List Char) : Option (List Char) :=
  match r.dropWhile pyWs with
  | c :: t => some ((c :: t).takeWhile (fun d => !(d = '\r' || d = '\n')))
  | [] =>
    match r.reverse.find? (fun d => !(d = '\r' || d = '\n')) with
    | some d => some [d]
    | none => none

/-- `(?:client|cliente)\s*[:\-]\s*([^\r\n]+)` at the current position.  The
alternation tries `client` first and backtracks to `cliente` exactly when
the separator fails after `client` (which is the only way `cliente` can
still succeed). -/
def matchClientCore (l : List Char) : Option (List Char) :=
  if ciStartsWith ("client").data l then
    match matchSepAfter (l.drop 6) with
    | some rest => captureLine rest
    | none =>
      if ciStartsWith ("cliente").data l then
        match matchSepAfter (l.drop 7) with
        | some rest => captureLine rest
        | none => none
      else none
  else none

/-- The anchored pattern body `\s*(?:client|cliente)...` after `^` or
`\r?\n`. -/
def matchClientAnchored (l : List Char) : Option (List Char) :=
  matchClientCore (l.dropWhile pyWs)

/-- Scan for the newline-anchored alternative of pattern 1. -/
def scClient1 : List Char → Option (List Char)
  | [] => none
  | c :: t =>
    match (if c = '\n' then matchClientAnchored t
           else if c = '\r' then
             (match t with
              | '\n' :: t2 => matchClientAnchored t2
              | _ => none)
           else none) with
    | some cap => some cap
    | none => scClient1 t

/-- Leftmost search of pattern 1,
`(?is)(?:^|\r?\n)\s*(?:client|cliente)\s*[:\-]\s*([^\r\n]+)`. -/
def searchClient1 (l : List Char) : Option (List Char) :=
  match matchClientAnchored l with
  | some cap => some cap
  | none => scClient1 l

/-- Leftmost search of pattern 2 (the unanchored fallback). -/
def searchClient2 : List Char → Option (List Char)
  | [] => none
  | c :: t =>
    match matchClientCore (c :: t) with
    | some cap => some cap
    | none => searchClient2 t

/-- `re.sub(r"\s{2,}", " ", ...)`: collapse each run of two or more
whitespace characters into a single space (isolated whitespace characters
are left unchanged).  Fuel-driven; the initial fuel is the list length. -/
def collapseWsL : Nat → List Char → List Char
  | 0, _ => []
  | _ + 1, [] => []
  | fuel + 1, c :: t =>
    if pyWs c then
      match t with
      | d :: t2 =>
        if pyWs d then ' ' :: collapseWsL fuel (t2.dropWhile pyWs)
        else c :: collapseWsL fuel t
      | [] => [c]
    else c :: collapseWsL fuel t

/-- `re.split(r"\s+(?:PRIORITY|MEDIUM|HIGH|LOW|STATUS|ZONE)\b", val)[0]`:
the prefix before the first whitespace run that is followed by a truncation
keyword with a word boundary after it. -/
def splitAtKwL : List Char → List Char
  | [] => []
  | c :: t =>
    if pyWs c && kwHere (t.dropWhile pyWs) then []
    else c :: splitAtKwL t

/-- Embeds `parse_client_from_text` (source lines 81-92). -/
def parse_client_from_text (name notes : String) : String :=
  let blob := (name ++ "\n" ++ notes).data
  let mcap :=
    match searchClient1 blob with
    | some cap => some cap
    | none => searchClient2 blob
  match mcap with
  | none => ""
  | some cap =>
    let v1 := trimWs cap
    let v2 := collapseWsL v1.length v1
    let v3 := splitAtKwL v2
    ⟨trimBy (fun c => memb c [' ', '-', ':', ';', '|']) v3⟩

/-- The group repetition of `RE_WO_ANY` (source line 63): zero or more of
optional whitespace, a dash or slash, optional whitespace and a digit run,
greedy, returning the literally matched characters.  Fuel-driven; each
iteration consumes at least two characters. -/
def woChain : Nat → List Char → List Char
  | 0, _ => []
  | _ + 1, [] => []
  | fuel + 1, l =>
    let pre := l.takeWhile pyWs
    match l.dropWhile pyWs with
    | c :: t =>
      if c = '-' || c = '/' then
        let mid := t.takeWhile pyWs
        let t1 := t.dropWhile pyWs
        let ds := t1.takeWhile isAsciiDigit
        if ds = [] then []
        else pre ++ c :: (mid ++ ds ++ woChain fuel (t1.drop ds.length))
      else []
    | [] => []

/-- The body of `RE_WO_ANY` at the current position: `WO`, whitespace, an
alphanumeric run and the dash-or-slash digit chain (the `\b` before `WO` is
checked by the caller); returns group 1. -/
def woAnyCore (l : List Char) : Option (List Char) :=
  if ciStartsWith ("wo").data l then
    match l.drop 2 with
    | c :: t =>
      if pyWs c then
        let rest2 := (c :: t).dropWhile pyWs
        let an := rest2.takeWhile isAsciiAlnum
        if an = [] then none
        else some (an ++ woChain rest2.length (rest2.drop an.length))
      else none
    | [] => none
  else none

/-- Leftmost search of `RE_WO_ANY`, tracking whether the previous character
is a word character for the `\b` boundary. -/
def woAnySearch : Bool → List Char → Option (List Char)
  | _, [] => none
  | prevWord, c :: t =>
    match (if prevWord then none else woAnyCore (c :: t)) with
    | some g => some g
    | none => woAnySearch (isWordC c) t

/-- Python `$` without `re.MULTILINE`: end of string, or just before one
trailing newline. -/
def dollarOk (rem : List Char) : Bool := rem = [] || rem = ['\n']

/-- The lookahead `(?=\s+(?:PRIORITY|MEDIUM|HIGH|LOW|STATUS|ZONE)\b|$)` of
the fallback pattern (source line 102). -/
def lookAheadOk (rem : List Char) : Bool :=
  (match rem with
   | c :: _ => pyWs c && kwHere (rem.dropWhile pyWs)
   | [] => false) || dollarOk rem

/-- The lazy `.*?` (dot excludes newline) up to the lookahead; returns the
consumed characters. -/
def lazyAux : List Char → List Char → Option (List Char)
  | [], acc => if lookAheadOk [] then some acc.reverse else none
  | c :: t, acc =>
    if lookAheadOk (c :: t) then some acc.reverse
    else if c = '\n' then none
    else lazyAux t (c :: acc)

/-- `\bWO\b.*?(?=...)` at the current position; returns the whole match
(Python `m2.group(0)`). -/
def woFallbackCore (l : List Char) : Option (List Char) :=
  if ciStartsWith ("wo").data l then
    let rest := l.drop 2
    let bOk := match rest.head? with
      | some c => !isWordC c
      | none => true
    if bOk then
      match lazyAux rest [] with
      | some consumed => some (l.take 2 ++ consumed)
      | none => none
    else none
  else none

/-- Leftmost search of the fallback pattern with `\b` tracking. -/
def woFallbackSearch : Bool → List Char → Option (List Char)
  | _, [] => none
  | prevWord, c :: t =>
    match (if prevWord then none else woFallbackCore (c :: t)) with
    | some g => some g
    | none => woFallbackSearch (isWordC c) t

/-- Embeds `wo_from_name` (source lines 95-108). -/
def wo_from_name (text : String) : String :=
  if text = "" then ""
  else
    match woAnySearch false text.data with
    | some g => "WO " ++ pyStrip ⟨g⟩
    | none =>
      match woFallbackSearch false text.data with
      | some run =>
        (match woAnySearch false run with
         | some g => "WO " ++ pyStrip ⟨g⟩
         | none => pyStrip ⟨run⟩)
      | none => ""

/-! The task data model (the `RawTask` shape consumed by `extract_fields`
and `build_dataframe`).  Python `None` and missing keys coincide with the
empty string under the source's `or`-chains, so text fields use the `""`
sentinel; `number_value` keeps the `None`/value distinction the source
tests with `is not None`. -/

/-- One membership entry of a task. -/
structure AMembership where
  project_gid : String
  section_name : String
deriving DecidableEq, Repr

/-- One custom-field entry of a task (`enum_name` is
`cf["enum_value"]["name"]`). -/
structure CField where
  name : String
  display_value : String
  enum_name : String
  number_value : Option Rat
  text_value : String
deriving DecidableEq, Repr

/-- A raw task record. -/
structure ATask where
  gid : String
  name : String
  notes : String
  permalink_url : String
  created_at : String
  modified_at : String
  memberships : List AMembership
  custom_fields : List CField
deriving DecidableEq, Repr

/-- The field map built by `extract_fields` (its `out` dict, source lines
184-189). -/
structure CF where
  client : String
  zone : String
  approved_value : Option Rat
  invoice_date : String
  paid_flag : Bool
  paid_date : String
  paid_amount : Option Rat
  priority : String
  status : String
  canceled_flag : Bool
  canceled_date : String
  ctype : String
  wo_number : String
  materials_cost : Rat
  labor_cost : Rat
deriving DecidableEq, Repr

/-- The initial `out` dict of `extract_fields` (source lines 184-189). -/
def CF0 : CF := ⟨"", "", none, "", false, "", none, "", "", false, "", "", "", 0, 0⟩

/-- The truthy token set of the boolean fields (source lines 208 and 219). -/
def truthyVals : List String := ["1", "true", "yes", "sí", "si"]

/-- `num if num is not None else _try_parse_money(disp or text)`. -/
def numOrParse (num : Option Rat) (disp text : String) : Option Rat :=
  match num with
  | some v => some v
  | none => try_parse_money (pyOr disp text)

/-- The boolean-field extraction `(disp or text or enumn or "").strip().lower()`
tested against the truthy set or the field-specific literal. -/
def boolFieldVal (disp text enumn lit : String) : Bool :=
  let val := pyLowerStr (pyStrip (pyOr disp (pyOr text enumn)))
  memb val truthyVals || val == lit

/-- One iteration of the custom-field loop of `extract_fields` (the elif
chain of source lines 190-229). -/
def apply_cf (out : CF) (cf : CField) : CF :=
  let n := normalize_upper cf.name
  let disp := cf.display_value
  let enumn := cf.enum_name
  let num := cf.number_value
  let text := cf.text_value
  if alias_hit n (FIELD_ALIASES .client) then { out with client := pyOr disp text }
  else if alias_hit n (FIELD_ALIASES .zone) then
    { out with zone := pyOr disp (pyOr text enumn) }
  else if alias_hit n (FIELD_ALIASES .approved_value) then
    { out with approved_value := numOrParse num disp text }
  else if alias_hit n (FIELD_ALIASES .invoice_date) then
    { out with invoice_date := pyStrip (pyOr disp text) }
  else if alias_hit n (FIELD_ALIASES .paid_flag) then
    { out with paid_flag := boolFieldVal disp text enumn ("paid") }
  else if alias_hit n (FIELD_ALIASES .paid_date) then
    { out with paid_date := pyStrip (pyOr disp text) }
  else if alias_hit n (FIELD_ALIASES .paid_amount) then
    { out with paid_amount := numOrParse num disp text }
  else if alias_hit n (FIELD_ALIASES .priority) then
    { out with priority := pyOr enumn (pyOr disp text) }
  else if alias_hit n (FIELD_ALIASES .status) then
    { out with status := pyOr enumn (pyOr disp text) }
  else if alias_hit n (FIELD_ALIASES .canceled_flag) then
    { out with canceled_flag := boolFieldVal disp text enumn ("canceled") }
  else if alias_hit n (FIELD_ALIASES .canceled_date) then
    { out with canceled_date := pyStrip (pyOr disp text) }
  else if alias_hit n (FIELD_ALIASES .ctype) then
    { out with ctype := pyStrip (pyOr enumn (pyOr disp text)) }
  else if alias_hit n (FIELD_ALIASES .wo_number) then
    { out with wo_number := pyStrip (pyOr disp text) }
  else if alias_hit n (FIELD_ALIASES .materials_cost) then
    { out with materials_cost := (numOrParse num disp text).getD 0 }
  else if alias_hit n (FIELD_ALIASES .labor_cost) then
    { out with labor_cost := (numOrParse num disp text).getD 0 }
  else out

/-- Embeds `extract_fields` (source lines 183-233), including the
`wo_from_name` fallback when no custom field supplied a work order. -/
def extract_fields (t : ATask) : CF :=
  let out := t.custom_fields.foldl apply_cf CF0
  if out.wo_number = "" then { out with wo_number := wo_from_name t.name } else out

/-- The section of a task within the current project (source lines 254-260):
the first membership whose project gid matches, its section name stripped;
no match yields the empty string. -/
def section_of (t : ATask) (pgid : String) : String :=
  match t.memberships.find? (fun m => m.project_gid == pgid) with
  | some m => pyStrip m.section_name
  | none => ""

/-- The two `continue` guards of the task loop (source lines 261-273):
ignored-section tokens, then the cutoff test on done/cancel-like sections.
`dparse` abstracts `dateutil.parser.parse(...).date()` with exceptions as
`none`. -/
def task_excluded (dparse : String → Option SDate) (cutoff : Option SDate)
    (sec mo cr : String) : Bool :=
  if IGNORED_SECTION_TOKENS.any (fun tok => strContains tok (normalize_upper sec)) then true
  else
    match cutoff with
    | none => false
    | some c =>
      let sn := normalize_upper sec
      if strContains ("DONE") sn || strContains ("CANCEL") sn then
        match dparse (if mo = "" then cr else mo) with
        | some d => dlt d c
        | none => false
      else false

/-- One output row (the dict appended at source lines 301-328); field names
are snake-case versions of the column labels, `rtype` is the `Type` column,
`orden` the `# de orden` column, `utilidad`/`utilidad_pct` the
`Utilidad ($)`/`Utilidad (%)` columns. -/
structure Row where
  project : String
  zone : String
  rtype : String
  task_gid : String
  task_url : String
  orden : String
  task_name : String
  column : String
  logical_status : String
  client : String
  priority : String
  status_cf : String
  approved_value : Rat
  approved_real : Rat
  gasto_materiales : Rat
  gasto_labor : Rat
  gastos_total : Rat
  utilidad : Rat
  utilidad_pct : Rat
  invoice_date : String
  invoice_month : String
  paid : Bool
  paid_date : String
  paid_amount : Option Rat
  created_at : String
  modified_at : String
deriving DecidableEq, Repr

/-- The zone and client fallbacks applied to the extracted fields (source
lines 275-281). -/
def adjusted_cf (pz : String) (t : ATask) : CF :=
  let cf := extract_fields t
  let cf2 := if cf.zone = "" then { cf with zone := pz } else cf
  if cf2.client = "" then
    let parsed := parse_client_from_text t.name t.notes
    if parsed = "" then cf2 else { cf2 with client := parsed }
  else cf2

/-- The row construction of the task loop (source lines 275-328): financial
derivation and dict assembly for one surviving task. -/
def mk_row (fz : String → Option SDate) (fees : List (String × List (String × Rat)))
    (pname pz tt sec : String) (t : ATask) : Row :=
  let cf := adjusted_cf pz t
  let approved : Rat := (cf.approved_value).getD 0
  let fee_pct := get_fee_pct fees cf.client tt
  let approved_real := approved * (1 - fee_pct)
  let materials := cf.materials_cost
  let labor := cf.labor_cost
  let gastos_total := materials + labor
  let profit := approved_real - gastos_total
  let profit_pct := if approved_real = 0 then 0 else profit / approved_real
  let inv := cf.invoice_date
  let invoice_month :=
    if inv = "" then ""
    else match fz inv with
      | some d => fmtYYYYMM d
      | none => ""
  { project := pname, zone := cf.zone,
    rtype := if cf.ctype = "" then tt else cf.ctype,
    task_gid := t.gid, task_url := t.permalink_url,
    orden := pyStrip cf.wo_number, task_name := t.name, column := sec,
    logical_status :=
      (match alook (normalize_upper sec) COLUMN_STATUS_MAP with
       | some v => v
       | none => sec),
    client := cf.client, priority := cf.priority, status_cf := cf.status,
    approved_value := approved, approved_real := approved_real,
    gasto_materiales := materials, gasto_labor := labor, gastos_total := gastos_total,
    utilidad := profit, utilidad_pct := profit_pct,
    invoice_date := fmt_mmddyyyy fz inv, invoice_month := invoice_month,
    paid := cf.paid_flag || cf.paid_date != "",
    paid_date := fmt_mmddyyyy fz cf.paid_date, paid_amount := cf.paid_amount,
    created_at := t.created_at, modified_at := t.modified_at }

/-- One project of the projects list. -/
structure Project where
  gid : String
  name : String
deriving DecidableEq, Repr

/-- The project-name type hint
`"WO" if "(WO)" in pname.upper() else ("PO" if "(PO)" in pname.upper() else "")`
(source line 250). -/
def ttype_of (pname : String) : String :=
  if strContains ("(WO)") (pyUpperStr pname) then "WO"
  else if strContains ("(PO)") (pyUpperStr pname) then "PO"
  else ""

/-- The per-task body of the loop (filter then row append): `none` exactly
when one of the `continue` guards fires. -/
def process_task (dparse fz : String → Option SDate) (cutoff : Option SDate)
    (fees : List (String × List (String × Rat))) (pgid pname pz tt : String)
    (t : ATask) : Option Row :=
  let sec := section_of t pgid
  if task_excluded dparse cutoff sec t.modified_at t.created_at then none
  else some (mk_row fz fees pname pz tt sec t)

/-- The project loop of `build_dataframe` (source lines 247-328);
`none` propagates the `IndexError` that `zone_from_project` would raise. -/
def build_rows (dparse fz : String → Option SDate) (cutoff : Option SDate)
    (fees : List (String × List (String × Rat))) (tasksOf : String → List ATask) :
    List Project → Option (List Row)
  | [] => some []
  | p :: ps =>
    match zone_from_project p.name with
    | none => none
    | some pz =>
      match build_rows dparse fz cutoff fees tasksOf ps with
      | none => none
      | some rest =>
        some ((tasksOf p.gid).filterMap
          (process_task dparse fz cutoff fees p.gid p.name pz (ttype_of p.name)) ++ rest)

/-- Embeds `build_dataframe` (source lines 235-330) up to the row list (the
`DataFrame` construction and column reordering are the rendering sink).
`tasksOf` replaces the external task source; `dparse` abstracts the plain
`dateutil` parse used for the cutoff and task timestamps, `fz` the fuzzy
parse used for invoice/paid dates. -/
def build_dataframe (dparse fz : String → Option SDate) (projects : List Project)
    (tasksOf : String → List ATask) (done_cutoff : String)
    (fees : List (String × List (String × Rat))) : Option (List Row) :=
  let cutoff := if done_cutoff = "" then none else dparse done_cutoff
  build_rows dparse fz cutoff fees tasksOf projects

/-! Concrete data used by the end-to-end claims and witnesses. -/

/-- The fee table of the end-to-end scenario. -/
def feesC1 : List (String × List (String × Rat)) := [("ACME", [("WO", (1 : Rat)/10)])]

/-- The project of the end-to-end scenario. -/
def projC1 : Project := ⟨"1", "Zone North (WO)"⟩

/-- The task of the end-to-end scenario: custom fields CLIENTE, VALOR
APROBADO, GASTO MATERIALES, GASTO LABOR; section SCHEDULED. -/
def taskC1 : ATask :=
  { gid := "t1", name := "Task 1", notes := "", permalink_url := "https://example/t1",
    created_at := "2024-01-01T00:00:00.000Z", modified_at := "2024-01-02T00:00:00.000Z",
    memberships := [⟨"1", "SCHEDULED"⟩],
    custom_fields :=
      [⟨"CLIENTE", "Acme", "", none, ""⟩,
       ⟨"VALOR APROBADO", "1000", "", some 1000, ""⟩,
       ⟨"GASTO MATERIALES", "200", "", some 200, ""⟩,
       ⟨"GASTO LABOR", "100", "", some 100, ""⟩] }

/-- The pipeline output on the end-to-end scenario (no cutoff configured). -/
def rowsC1 : Option (List Row) :=
  build_dataframe dateutil_fuzzy dateutil_fuzzy [projC1] (fun _ => [taskC1]) "" feesC1

/-- A task whose paid-flag field is falsy but whose paid-date field is
non-empty. -/
def taskPaid : ATask :=
  { gid := "t2", name := "Paid task", notes := "", permalink_url := "",
    created_at := "", modified_at := "", memberships := [],
    custom_fields :=
      [⟨"PAGADO", "", "", none, ""⟩,
       ⟨"FECHA DE PAGO", "01/02/2024", "", none, ""⟩] }

/-! Generic list lemmas used below. -/

theorem memb_iff {α : Type} [DecidableEq α] (x : α) :
    ∀ l : List α, memb x l = true ↔ x ∈ l := by
  intro l
  induction l with
  | nil => simp [memb]
  | cons a t ih =>
    by_cases h : a = x
    · subst h; simp [memb]
    · simp only [memb, if_neg h, ih, List.mem_cons]
      constructor
      · intro hx; exact Or.inr hx
      · rintro (he | hx)
        · exact absurd he.symm h
        · exact hx

theorem alook_mem {α β : Type} [DecidableEq α] (k : α) :
    ∀ (l : List (α × β)) (b : β), alook k l = some b → (k, b) ∈ l := by
  intro l
  induction l with
  | nil => intro b h; simp [alook] at h
  | cons p t ih =>
    intro b h
    obtain ⟨a, v⟩ := p
    rw [alook] at h
    by_cases hp : a = k
    · subst hp
      rw [if_pos rfl] at h
      injection h with h2
      subst h2
      exact List.mem_cons_self _ _
    · rw [if_neg hp] at h
      exact List.mem_cons_of_mem _ (ih b h)

theorem dropWhile_idem {α : Type} (p : α → Bool) :
    ∀ l : List α, List.dropWhile p (List.dropWhile p l) = List.dropWhile p l := by
  intro l
  induction l with
  | nil => rfl
  | cons a t ih =>
    cases h : p a
    · simp [List.dropWhile_cons, h]
    · simp [List.dropWhile_cons, h, ih]

theorem dropWhile_head_not {α : Type} (p : α → Bool) :
    ∀ (l : List α) (a : α), (List.dropWhile p l).head? = some a → p a = false := by
  intro l
  induction l with
  | nil => intro a h; simp [List.dropWhile] at h
  | cons b t ih =>
    intro a h
    cases hb : p b
    · rw [List.dropWhile_cons, hb] at h
      simp at h
      exact h ▸ hb
    · rw [List.dropWhile_cons, hb] at h
      simp at h
      exact ih a h

theorem dropWhile_eq_self_of_head {α : Type} (p : α → Bool) :
    ∀ l : List α, (∀ a, l.head? = some a → p a = false) → List.dropWhile p l = l := by
  intro l h
  cases l with
  | nil => rfl
  | cons a t =>
    have := h a rfl
    simp [List.dropWhile_cons, this]

theorem getLast?_dropWhile {α : Type} (p : α → Bool) :
    ∀ l : List α, List.dropWhile p l ≠ [] →
      (List.dropWhile p l).getLast? = l.getLast? := by
  intro l
  induction l with
  | nil => intro h; exact absurd rfl h
  | cons a t ih =>
    intro h
    cases ha : p a
    · simp [List.dropWhile_cons, ha]
    · simp only [List.dropWhile_cons, ha, if_true] at h ⊢
      rw [ih h]
      have ht : t ≠ [] := by
        intro he
        rw [he] at h
        simp [List.dropWhile] at h
      cases t with
      | nil => exact absurd rfl ht
      | cons b t2 => rw [List.getLast?_cons_cons]

theorem mem_of_mem_dropWhile {α : Type} (p : α → Bool) :
    ∀ (l : List α) (c : α), c ∈ List.dropWhile p l → c ∈ l := by
  intro l
  induction l with
  | nil => intro c h; simp [List.dropWhile] at h
  | cons a t ih =>
    intro c h
    cases ha : p a
    · rw [List.dropWhile_cons, ha] at h
      simpa using h
    · rw [List.dropWhile_cons, ha] at h
      simp only [cond_true] at h
      exact List.mem_cons_of_mem _ (ih c h)

theorem mem_of_mem_trimBy (p : Char → Bool) (l : List Char) (c : Char) :
    c ∈ trimBy p l → c ∈ l := by
  intro h
  unfold trimBy at h
  rw [List.mem_reverse] at h
  have h2 := mem_of_mem_dropWhile p _ _ h
  rw [List.mem_reverse] at h2
  exact mem_of_mem_dropWhile p _ _ h2

theorem trimBy_idem (p : Char → Bool) (l : List Char) :
    trimBy p (trimBy p l) = trimBy p l := by
  unfold trimBy
  set A := List.dropWhile p l with hA
  set D := List.dropWhile p A.reverse with hD
  have hdrop : List.dropWhile p D.reverse = D.reverse := by
    apply dropWhile_eq_self_of_head
    intro a ha
    rw [List.head?_reverse] at ha
    have hDne : D ≠ [] := by
      intro he
      rw [he] at ha
      simp at ha
    rw [hD, getLast?_dropWhile p _ (by rw [← hD]; exact hDne)] at ha
    rw [List.getLast?_reverse] at ha
    exact dropWhile_head_not p l a (by rw [← hA]; exact ha)
  rw [hdrop, List.reverse_reverse, hD, dropWhile_idem]

/-! Character-level facts for the normalizer. -/

theorem nfdChar_of_none {c : Char} (h : alook c nfdTable = none) : nfdChar c = [c] := by
  unfold nfdChar
  rw [h]

theorem nfdTable_entries_good :
    ∀ p ∈ nfdTable, ∀ d ∈ p.2, isMn d = false →
      (nfdChar (pyUpperChar d) = [pyUpperChar d] ∧ isMn (pyUpperChar d) = false ∧
        pyUpperChar (pyUpperChar d) = pyUpperChar d) := by decide

theorem pyUpperTable_entries_good :
    ∀ p ∈ pyUpperTable, (alook p.1 nfdTable).isSome = true ∨
      (alook p.2 nfdTable = none ∧ isMn p.2 = false ∧ alook p.2 pyUpperTable = none) := by
  decide

theorem upper_fix (c : Char) (hn : alook c nfdTable = none) (hm : isMn c = false) :
    nfdChar (pyUpperChar c) = [pyUpperChar c] ∧ isMn (pyUpperChar c) = false ∧
      pyUpperChar (pyUpperChar c) = pyUpperChar c := by
  cases h2 : alook c pyUpperTable with
  | none =>
    have hu : pyUpperChar c = c := by unfold pyUpperChar; rw [h2]
    rw [hu]
    exact ⟨nfdChar_of_none hn, hm, hu⟩
  | some u =>
    have hmem := alook_mem c pyUpperTable u h2
    rcases pyUpperTable_entries_good (c, u) hmem with hs | ⟨h3, h4, h5⟩
    · rw [hn] at hs
      simp at hs
    · have hu : pyUpperChar c = u := by unfold pyUpperChar; rw [h2]
      rw [hu]
      refine ⟨nfdChar_of_none h3, h4, ?_⟩
      unfold pyUpperChar
      rw [h5]

theorem char_pipeline_good (e d : Char) (hd : d ∈ nfdChar e) (hm : isMn d = false) :
    nfdChar (pyUpperChar d) = [pyUpperChar d] ∧ isMn (pyUpperChar d) = false ∧
      pyUpperChar (pyUpperChar d) = pyUpperChar d := by
  cases h : alook e nfdTable with
  | some L =>
    have hmem := alook_mem e nfdTable L h
    have hd2 : d ∈ L := by
      unfold nfdChar at hd
      rw [h] at hd
      exact hd
    exact nfdTable_entries_good (e, L) hmem d hd2 hm
  | none =>
    have hde : d = e := by
      unfold nfdChar at hd
      rw [h] at hd
      simpa using hd
    subst hde
    exact upper_fix d h hm

theorem mem_nfdExpand (l : List Char) (d : Char) :
    d ∈ nfdExpand l → ∃ e ∈ l, d ∈ nfdChar e := by
  induction l with
  | nil => intro h; simp [nfdExpand] at h
  | cons c t ih =>
    intro h
    rw [nfdExpand, List.mem_append] at h
    rcases h with h | h
    · exact ⟨c, List.mem_cons_self c t, h⟩
    · obtain ⟨e, he, hd⟩ := ih h
      exact ⟨e, List.mem_cons_of_mem c he, hd⟩

theorem normCore_good (l : List Char) :
    ∀ c ∈ normCore l, nfdChar c = [c] ∧ isMn c = false ∧ pyUpperChar c = c := by
  intro c hc
  unfold normCore at hc
  have hc2 := mem_of_mem_trimBy _ _ _ hc
  rw [List.mem_map] at hc2
  obtain ⟨d, hd, rfl⟩ := hc2
  rw [List.mem_filter] at hd
  obtain ⟨hd1, hd2⟩ := hd
  have hm : isMn d = false := by simpa using hd2
  obtain ⟨e, _, hde⟩ := mem_nfdExpand _ _ hd1
  exact char_pipeline_good e d hde hm

theorem nfdExpand_fix (l : List Char) (h : ∀ c ∈ l, nfdChar c = [c]) : nfdExpand l = l := by
  induction l with
  | nil => rfl
  | cons c t ih =>
    rw [nfdExpand, h c (List.mem_cons_self c t),
      ih (fun d hd => h d (List.mem_cons_of_mem c hd))]
    rfl

theorem map_id_of (l : List Char) (h : ∀ c ∈ l, pyUpperChar c = c) :
    l.map pyUpperChar = l := by
  induction l with
  | nil => rfl
  | cons c t ih =>
    rw [List.map_cons, h c (List.mem_cons_self c t),
      ih (fun d hd => h d (List.mem_cons_of_mem c hd))]

theorem normCore_idem (l : List Char) : normCore (normCore l) = normCore l := by
  have hg := normCore_good l
  have h1 : nfdExpand (normCore l) = normCore l :=
    nfdExpand_fix _ (fun c hc => (hg c hc).1)
  have h2 : (normCore l).filter (fun c => !isMn c) = normCore l := by
    rw [List.filter_eq_self]
    intro c hc
    simpa using (hg c hc).2.1
  have h3 : (normCore l).map pyUpperChar = normCore l :=
    map_id_of _ (fun c hc => (hg c hc).2.2)
  show trimWs (((nfdExpand (normCore l)).filter (fun c => !isMn c)).map pyUpperChar) = normCore l
  rw [h1, h2, h3]
  unfold normCore trimWs
  exact trimBy_idem pyWs _

/-- C8: the text normalizer is idempotent, diacritic- and case-insensitive,
and maps empty input to the empty string; in particular
`normalize("Clíente") = normalize("CLIENTE") = "CLIENTE"`. -/
theorem normalize_upper_idempotent :
    (∀ s : String, normalize_upper (normalize_upper s) = normalize_upper s) ∧
      normalize_upper ("Clíente") = "CLIENTE" ∧ normalize_upper ("CLIENTE") = "CLIENTE" ∧
      normalize_upper ("") = "" := by
  refine ⟨?_, by decide, by decide, rfl⟩
  intro s
  by_cases hs : s = ""
  · subst hs; rfl
  · have hn : normalize_upper s = ⟨normCore s.data⟩ := by
      unfold normalize_upper
      rw [if_neg hs]
    rw [hn]
    by_cases ht : (⟨normCore s.data⟩ : String) = ""
    · unfold normalize_upper
      rw [if_pos ht]
      exact ht.symm
    · unfold normalize_upper
      rw [if_neg ht]
      show (⟨normCore (normCore s.data)⟩ : String) = ⟨normCore s.data⟩
      rw [normCore_idem]
theorem assigned_key_eq_find (n : String) :
    assigned_key n = canonicalOrder.find? (fun k => alias_hit n (FIELD_ALIASES k)) := by
  unfold assigned_key canonicalOrder
  by_cases h1 : alias_hit n (FIELD_ALIASES CKey.client) = true
  · rw [if_pos h1, @List.find?_cons_of_pos CKey (fun k => alias_hit n (FIELD_ALIASES k)) CKey.client _ h1]
  · rw [if_neg h1, @List.find?_cons_of_neg CKey (fun k => alias_hit n (FIELD_ALIASES k)) CKey.client _ h1]
    by_cases h2 : alias_hit n (FIELD_ALIASES CKey.zone) = true
    · rw [if_pos h2, @List.find?_cons_of_pos CKey (fun k => alias_hit n (FIELD_ALIASES k)) CKey.zone _ h2]
    · rw [if_neg h2, @List.find?_cons_of_neg CKey (fun k => alias_hit n (FIELD_ALIASES k)) CKey.zone _ h2]
      by_cases h3 : alias_hit n (FIELD_ALIASES CKey.approved_value) = true
      · rw [if_pos h3, @List.find?_cons_of_pos CKey (fun k => alias_hit n (FIELD_ALIASES k)) CKey.approved_value _ h3]
      · rw [if_neg h3, @List.find?_cons_of_neg CKey (fun k => alias_hit n (FIELD_ALIASES k)) CKey.approved_value _ h3]
        by_cases h4 : alias_hit n (FIELD_ALIASES CKey.invoice_date) = true
        · rw [if_pos h4, @List.find?_cons_of_pos CKey (fun k => alias_hit n (FIELD_ALIASES k)) CKey.invoice_date _ h4]
        · rw [if_neg h4, @List.find?_cons_of_neg CKey (fun k => alias_hit n (FIELD_ALIASES k)) CKey.invoice_date _ h4]
          by_cases h5 : alias_hit n (FIELD_ALIASES CKey.paid_flag) = true
          · rw [if_pos h5, @List.find?_cons_of_pos CKey (fun k => alias_hit n (FIELD_ALIASES k)) CKey.paid_flag _ h5]
          · rw [if_neg h5, @List.find?_cons_of_neg CKey (fun k => alias_hit n (FIELD_ALIASES k)) CKey.paid_flag _ h5]
            by_cases h6 : alias_hit n (FIELD_ALIASES CKey.paid_date) = true
            · rw [if_pos h6, @List.find?_cons_of_pos CKey (fun k => alias_hit n (FIELD_ALIASES k)) CKey.paid_date _ h6]
            · rw [if_neg h6, @List.find?_cons_of_neg CKey (fun k => alias_hit n (FIELD_ALIASES k)) CKey.paid_date _ h6]
              by_cases h7 : alias_hit n (FIELD_ALIASES CKey.paid_amount) = true
              · rw [if_pos h7, @List.find?_cons_of_pos CKey (fun k => alias_hit n (FIELD_ALIASES k)) CKey.paid_amount _ h7]
              · rw [if_neg h7, @List.find?_cons_of_neg CKey (fun k => alias_hit n (FIELD_ALIASES k)) CKey.paid_amount _ h7]
                by_cases h8 : alias_hit n (FIELD_ALIASES CKey.priority) = true
                · rw [if_pos h8, @List.find?_cons_of_pos CKey (fun k => alias_hit n (FIELD_ALIASES k)) CKey.priority _ h8]
                · rw [if_neg h8, @List.find?_cons_of_neg CKey (fun k => alias_hit n (FIELD_ALIASES k)) CKey.priority _ h8]
                  by_cases h9 : alias_hit n (FIELD_ALIASES CKey.status) = true
                  · rw [if_pos h9, @List.find?_cons_of_pos CKey (fun k => alias_hit n (FIELD_ALIASES k)) CKey.status _ h9]
                  · rw [if_neg h9, @List.find?_cons_of_neg CKey (fun k => alias_hit n (FIELD_ALIASES k)) CKey.status _ h9]
                    by_cases h10 : alias_hit n (FIELD_ALIASES CKey.canceled_flag) = true
                    · rw [if_pos h10, @List.find?_cons_of_pos CKey (fun k => alias_hit n (FIELD_ALIASES k)) CKey.canceled_flag _ h10]
                    · rw [if_neg h10, @List.find?_cons_of_neg CKey (fun k => alias_hit n (FIELD_ALIASES k)) CKey.canceled_flag _ h10]
                      by_cases h11 : alias_hit n (FIELD_ALIASES CKey.canceled_date) = true
                      · rw [if_pos h11, @List.find?_cons_of_pos CKey (fun k => alias_hit n (FIELD_ALIASES k)) CKey.canceled_date _ h11]
                      · rw [if_neg h11, @List.find?_cons_of_neg CKey (fun k => alias_hit n (FIELD_ALIASES k)) CKey.canceled_date _ h11]
                        by_cases h12 : alias_hit n (FIELD_ALIASES CKey.ctype) = true
                        · rw [if_pos h12, @List.find?_cons_of_pos CKey (fun k => alias_hit n (FIELD_ALIASES k)) CKey.ctype _ h12]
                        · rw [if_neg h12, @List.find?_cons_of_neg CKey (fun k => alias_hit n (FIELD_ALIASES k)) CKey.ctype _ h12]
                          by_cases h13 : alias_hit n (FIELD_ALIASES CKey.wo_number) = true
                          · rw [if_pos h13, @List.find?_cons_of_pos CKey (fun k => alias_hit n (FIELD_ALIASES k)) CKey.wo_number _ h13]
                          · rw [if_neg h13, @List.find?_cons_of_neg CKey (fun k => alias_hit n (FIELD_ALIASES k)) CKey.wo_number _ h13]
                            by_cases h14 : alias_hit n (FIELD_ALIASES CKey.materials_cost) = true
                            · rw [if_pos h14, @List.find?_cons_of_pos CKey (fun k => alias_hit n (FIELD_ALIASES k)) CKey.materials_cost _ h14]
                            · rw [if_neg h14, @List.find?_cons_of_neg CKey (fun k => alias_hit n (FIELD_ALIASES k)) CKey.materials_cost _ h14]
                              by_cases h15 : alias_hit n (FIELD_ALIASES CKey.labor_cost) = true
                              · rw [if_pos h15, @List.find?_cons_of_pos CKey (fun k => alias_hit n (FIELD_ALIASES k)) CKey.labor_cost _ h15]
                              · rw [if_neg h15, @List.find?_cons_of_neg CKey (fun k => alias_hit n (FIELD_ALIASES k)) CKey.labor_cost _ h15]
                                rfl

/-- C5: the alias resolver hits a canonical key exactly when the normalized
label equals a registered alias or some registered alias is a substring of
the label; and the elif chain of `extract_fields` assigns at most one
canonical key per raw field, namely the first key in the fixed enumeration
order whose alias set hits. -/
theorem alias_resolution_spec :
    ∀ n : String,
      (∀ k : CKey, alias_hit n (FIELD_ALIASES k) = true ↔
        (n ∈ FIELD_ALIASES k ∨ ∃ a ∈ FIELD_ALIASES k, strContains a n = true)) ∧
      assigned_key n = canonicalOrder.find? (fun k => alias_hit n (FIELD_ALIASES k)) := by
  intro n
  refine ⟨?_, assigned_key_eq_find n⟩
  intro k
  unfold alias_hit
  by_cases h : memb n (FIELD_ALIASES k) = true
  · rw [if_pos h]
    simp only [true_iff]
    exact Or.inl ((memb_iff n _).mp h)
  · rw [if_neg h]
    rw [List.any_eq_true]
    have hmem : ¬ n ∈ FIELD_ALIASES k := fun hm => h ((memb_iff n _).mpr hm)
    constructor
    · rintro ⟨a, ha, hc⟩
      exact Or.inr ⟨a, ha, hc⟩
    · rintro (hm | ⟨a, ha, hc⟩)
      · exact absurd hm hmem
      · exact ⟨a, ha, hc⟩

theorem moneyKeep_no_digit (c : Char) (h : memb c moneyKeep = true) : isAsciiDigit c = false := by
  have hm := (memb_iff c moneyKeep).mp h
  simp [moneyKeep] at hm
  rcases hm with rfl | rfl | rfl | rfl | rfl <;> decide

theorem takeWhile_nil_of_none {p : Char → Bool} (l : List Char)
    (h : ∀ c ∈ l, p c = false) : l.takeWhile p = [] := by
  cases l with
  | nil => rfl
  | cons c t => simp [List.takeWhile_cons, h c (List.mem_cons_self c t)]

theorem pyFloatTail_no_digit (sgn : Rat) (l2 : List Char)
    (h : ∀ c ∈ l2, isAsciiDigit c = false) : pyFloatTail sgn l2 = none := by
  unfold pyFloatTail
  rw [takeWhile_nil_of_none l2 h]
  simp only [List.length_nil, List.drop_zero]
  split
  · simp
  · rename_i fp
    cases fp with
    | nil => simp
    | cons d t2 =>
      have hd : isAsciiDigit d = false := h d (by simp)
      simp [hd]
  · rfl

theorem pyFloat_no_digit (l : List Char) (h : ∀ c ∈ l, isAsciiDigit c = false) :
    pyFloat ⟨l⟩ = none := by
  have h2 : ∀ c ∈ trimWs l, isAsciiDigit c = false :=
    fun c hc => h c (mem_of_mem_trimBy _ _ _ hc)
  unfold pyFloat
  show (match trimWs l with
    | '-' :: t => pyFloatTail (-1) t
    | '+' :: t => pyFloatTail 1 t
    | l2 => pyFloatTail 1 l2) = none
  split
  · rename_i t heq
    exact pyFloatTail_no_digit _ _ (fun c hc => h2 c (by rw [heq]; exact List.mem_cons_of_mem _ hc))
  · rename_i t heq
    exact pyFloatTail_no_digit _ _ (fun c hc => h2 c (by rw [heq]; exact List.mem_cons_of_mem _ hc))
  · exact pyFloatTail_no_digit _ _ h2

theorem try_parse_money_always_none (raw : String) : try_parse_money raw = none := by
  unfold try_parse_money
  by_cases h0 : raw = ""
  · rw [if_pos h0]
  · rw [if_neg h0]
    have hnd : ∀ c ∈ (pyUpperStr (pyStrip raw)).data.filter (fun c => memb c moneyKeep),
        isAsciiDigit c = false := by
      intro c hc
      rw [List.mem_filter] at hc
      exact moneyKeep_no_digit c hc.2
    have hA : pyFloat ⟨(pyUpperStr (pyStrip raw)).data.filter (fun c => memb c moneyKeep)⟩
        = none := pyFloat_no_digit _ hnd
    have hB : pyFloat ⟨((pyUpperStr (pyStrip raw)).data.filter
        (fun c => memb c moneyKeep)).filter (fun c => !(c = ','))⟩ = none := by
      apply pyFloat_no_digit
      intro c hc
      rw [List.mem_filter] at hc
      exact hnd c hc.1
    have hC : pyFloat ⟨((pyUpperStr (pyStrip raw)).data.filter
        (fun c => memb c moneyKeep)).map (fun c => if c = ',' then '.' else c)⟩ = none := by
      apply pyFloat_no_digit
      intro c hc
      rw [List.mem_map] at hc
      obtain ⟨d, hd, rfl⟩ := hc
      by_cases hdc : d = ','
      · rw [if_pos hdc]; decide
      · rw [if_neg hdc]; exact hnd d hd
    dsimp only
    split_ifs with h1 h2 h3
    · rfl
    · rw [hB, hA]
    · rw [hC, hA]
    · exact hA

/-- C2 (evidence for the code bug): because the character class of source
line 118 is written `[^\\d,.\\-]` inside a RAW string, the kept characters
are backslash, `d`, comma, period and minus — digits are stripped.  The
parser therefore returns `none` on the spec's own examples, and indeed on
EVERY input. -/
theorem try_parse_money_bug :
    (∀ raw : String, try_parse_money raw = none) ∧
      try_parse_money ("1,234.56") = none ∧ try_parse_money ("1.234,56") = none ∧
      try_parse_money ("abc") = none := by
  refine ⟨try_parse_money_always_none, by decide, by decide, by decide⟩

/-- C7: the fee lookup upper-cases client and type; a registered client
yields its type-specific fraction when present, else its `ANY` fraction
when present, else `0`; an unregistered client yields `0`. -/
theorem get_fee_pct_spec :
    ∀ (fees : List (String × List (String × Rat))) (client ttype : String),
      (alook (pyUpperStr client) fees = none → get_fee_pct fees client ttype = 0) ∧
      (∀ sub, alook (pyUpperStr client) fees = some sub →
        (∀ v, alook (pyUpperStr ttype) sub = some v → get_fee_pct fees client ttype = v) ∧
        (alook (pyUpperStr ttype) sub = none →
          (∀ v, alook ("ANY") sub = some v → get_fee_pct fees client ttype = v) ∧
          (alook ("ANY") sub = none → get_fee_pct fees client ttype = 0))) := by
  intro fees client ttype
  constructor
  · intro h
    unfold get_fee_pct
    rw [h]
  · intro sub hsub
    constructor
    · intro v hv
      unfold get_fee_pct
      rw [hsub]
      dsimp only
      rw [hv]
    · intro hnone
      constructor
      · intro v hv
        unfold get_fee_pct
        rw [hsub]
        dsimp only
        rw [hnone]
        dsimp only
        rw [hv]
      · intro h2
        unfold get_fee_pct
        rw [hsub]
        dsimp only
        rw [hnone]
        dsimp only
        rw [h2]

unseal Rat.add Rat.mul Rat.sub Rat.inv in
/-- Witness for C7: on the concrete table `feesC1` the client `Acme` with
type `wo` resolves to the registered `ACME`/`WO` fraction one tenth. -/
theorem get_fee_pct_spec_witness :
    get_fee_pct feesC1 ("Acme") ("wo") = (1 : Rat)/10 := by
  exact ((get_fee_pct_spec feesC1 ("Acme") ("wo")).2 [("WO", (1 : Rat)/10)]
    (by decide)).1 ((1 : Rat)/10) (by decide)

/-- C3: for every emitted record, with the fee fraction in the unit
interval and both costs nonnegative, net value, total cost, profit and the
zero-guarded profit ratio satisfy the derivation invariants. -/
theorem financial_derivation_spec :
    ∀ (fz : String → Option SDate) (fees : List (String × List (String × Rat)))
      (pname pz tt sec : String) (t : ATask) (cf : CF) (fee : Rat) (r : Row),
      adjusted_cf pz t = cf →
      get_fee_pct fees cf.client tt = fee →
      mk_row fz fees pname pz tt sec t = r →
      0 ≤ fee → fee < 1 → 0 ≤ cf.materials_cost → 0 ≤ cf.labor_cost →
      (r.approved_real = (cf.approved_value).getD 0 * (1 - fee) ∧
       r.gastos_total = cf.materials_cost + cf.labor_cost ∧
       r.utilidad = r.approved_real - r.gastos_total ∧
       (r.approved_real ≠ 0 → r.utilidad_pct = r.utilidad / r.approved_real) ∧
       (r.approved_real = 0 → r.utilidad_pct = 0)) := by
  intro fz fees pname pz tt sec t cf fee r hcf hfee hr h1 h2 h3 h4
  subst hcf
  subst hfee
  subst hr
  unfold mk_row
  dsimp only
  refine ⟨rfl, rfl, rfl, ?_, ?_⟩
  · intro hne
    rw [if_neg hne]
  · intro he
    rw [if_pos he]

unseal Rat.add Rat.mul Rat.sub Rat.inv in
/-- Witness for C3 at the concrete end-to-end task. -/
theorem financial_derivation_spec_witness :
    (mk_row dateutil_fuzzy feesC1 ("Zone North (WO)") ("(WO)") ("WO") ("SCHEDULED") taskC1).utilidad
        = (mk_row dateutil_fuzzy feesC1 ("Zone North (WO)") ("(WO)") ("WO") ("SCHEDULED") taskC1).approved_real
          - (mk_row dateutil_fuzzy feesC1 ("Zone North (WO)") ("(WO)") ("WO") ("SCHEDULED") taskC1).gastos_total
      ∧ (mk_row dateutil_fuzzy feesC1 ("Zone North (WO)") ("(WO)") ("WO") ("SCHEDULED") taskC1).utilidad_pct
        = (mk_row dateutil_fuzzy feesC1 ("Zone North (WO)") ("(WO)") ("WO") ("SCHEDULED") taskC1).utilidad
          / (mk_row dateutil_fuzzy feesC1 ("Zone North (WO)") ("(WO)") ("WO") ("SCHEDULED") taskC1).approved_real := by
  have h := financial_derivation_spec dateutil_fuzzy feesC1 ("Zone North (WO)") ("(WO)") ("WO")
    ("SCHEDULED") taskC1 (adjusted_cf ("(WO)") taskC1)
    (get_fee_pct feesC1 (adjusted_cf ("(WO)") taskC1).client ("WO"))
    (mk_row dateutil_fuzzy feesC1 ("Zone North (WO)") ("(WO)") ("WO") ("SCHEDULED") taskC1)
    rfl rfl rfl (by decide) (by decide) (by decide) (by decide)
  exact ⟨h.2.2.1, h.2.2.2.1 (by decide)⟩

/-- C4: a task is excluded exactly when its normalized section contains
`TRASH` or `ARCHIVE`, or a cutoff is configured, the normalized section
contains `DONE` or `CANCEL`, and the modification timestamp (falling back
to the creation timestamp) parses to a date strictly earlier than the
cutoff; and a task is dropped by the pipeline (`process_task` yields no
record) exactly when this exclusion fires. -/
theorem task_filter_spec :
    (∀ (dparse : String → Option SDate) (cutoff : Option SDate) (sec mo cr : String),
      task_excluded dparse cutoff sec mo cr = true ↔
        ((strContains ("TRASH") (normalize_upper sec) = true ∨
          strContains ("ARCHIVE") (normalize_upper sec) = true) ∨
         ∃ c, cutoff = some c ∧
           (strContains ("DONE") (normalize_upper sec) = true ∨
            strContains ("CANCEL") (normalize_upper sec) = true) ∧
           ∃ d, dparse (if mo = "" then cr else mo) = some d ∧ dlt d c = true)) ∧
    (∀ (dparse fz : String → Option SDate) (cutoff : Option SDate)
       (fees : List (String × List (String × Rat))) (pgid pname pz tt : String) (t : ATask),
      process_task dparse fz cutoff fees pgid pname pz tt t = none ↔
        task_excluded dparse cutoff (section_of t pgid) t.modified_at t.created_at = true) := by
  constructor
  · intro dparse cutoff sec mo cr
    unfold task_excluded
    have hany : (IGNORED_SECTION_TOKENS.any fun tok => strContains tok (normalize_upper sec)) =
        (strContains ("TRASH") (normalize_upper sec) || strContains ("ARCHIVE") (normalize_upper sec)) := by
      simp [IGNORED_SECTION_TOKENS, List.any]
    rw [hany]
    by_cases hA : (strContains ("TRASH") (normalize_upper sec)
        || strContains ("ARCHIVE") (normalize_upper sec)) = true
    · rw [if_pos hA]
      simp only [true_iff]
      exact Or.inl (by simpa using hA)
    · rw [if_neg hA]
      have hTR : ¬ (strContains ("TRASH") (normalize_upper sec) = true ∨
          strContains ("ARCHIVE") (normalize_upper sec) = true) := by
        simpa using hA
      cases cutoff with
      | none => simp [hTR]
      | some c =>
        dsimp only
        by_cases hD : (strContains ("DONE") (normalize_upper sec)
            || strContains ("CANCEL") (normalize_upper sec)) = true
        · rw [if_pos hD]
          cases hp : dparse (if mo = "" then cr else mo) with
          | none => simp [hTR, hp]
          | some d =>
            simp only [hTR, false_or]
            constructor
            · intro hlt
              exact ⟨c, rfl, by simpa using hD, d, rfl, hlt⟩
            · rintro ⟨c2, hc2, -, d2, hd2, hlt⟩
              injection hc2 with hc2
              subst hc2
              injection hd2 with hd2
              subst hd2
              exact hlt
        · rw [if_neg hD]
          have hDC : ¬ (strContains ("DONE") (normalize_upper sec) = true ∨
              strContains ("CANCEL") (normalize_upper sec) = true) := by
            simpa using hD
          constructor
          · intro hfalse
            simp at hfalse
          · rintro (h | ⟨c2, hc2, hdc, -⟩)
            · exact absurd h hTR
            · exact absurd hdc hDC
  · intro dparse fz cutoff fees pgid pname pz tt t
    unfold process_task
    by_cases h : task_excluded dparse cutoff (section_of t pgid) t.modified_at t.created_at = true
    · rw [if_pos h]
      simp [h]
    · rw [if_neg h]
      simp [h]

/-- C6 (amended): the date parser returns the fuzzy-parsed date as
`MM/DD/YYYY` when the permissive stage succeeds; otherwise it truncates at
the first literal `T`, attempts strict `YYYY-MM-DD` parsing of the
truncated string, and on failure of that returns the TRUNCATED string (the
original input only when no `T` occurs — a non-empty input beginning with
`T` can thus yield the empty string); empty input yields the empty string,
and `parseDate("2024-03-15T10:00:00") = "03/15/2024"`. -/
theorem fmt_mmddyyyy_amended :
    (∀ fz : String → Option SDate, fmt_mmddyyyy fz ("") = "") ∧
    (∀ (fz : String → Option SDate) (val : String) (d : SDate),
      val ≠ "" → fz val = some d → fmt_mmddyyyy fz val = fmtDate d) ∧
    (∀ (fz : String → Option SDate) (val : String),
      val ≠ "" → fz val = none →
        (∀ d, strptimeYmd (truncT val) = some d → fmt_mmddyyyy fz val = fmtDate d) ∧
        (strptimeYmd (truncT val) = none → fmt_mmddyyyy fz val = truncT val)) ∧
    fmt_mmddyyyy dateutil_fuzzy ("2024-03-15T10:00:00") = "03/15/2024" := by
  refine ⟨fun fz => rfl, ?_, ?_, by decide⟩
  · intro fz val d hv hf
    unfold fmt_mmddyyyy
    rw [if_neg hv, hf]
  · intro fz val hv hf
    constructor
    · intro d hd
      unfold fmt_mmddyyyy
      rw [if_neg hv, hf]
      dsimp only
      rw [hd]
    · intro hd
      unfold fmt_mmddyyyy
      rw [if_neg hv, hf]
      dsimp only
      rw [hd]

/-- Witness for C6: a non-empty string that neither stage parses is
returned unchanged (it contains no `T`, so truncation is the identity). -/
theorem fmt_mmddyyyy_amended_witness :
    fmt_mmddyyyy dateutil_fuzzy ("2024-13-40") = "2024-13-40" := by
  have h := (fmt_mmddyyyy_amended.2.2.1 dateutil_fuzzy ("2024-13-40")
    (by decide) (by decide)).2 (by decide)
  have ht : truncT ("2024-13-40") = "2024-13-40" := by decide
  rw [ht] at h
  exact h

/-- Counterexample for C6 as stated: on `"fooTbar"` both stages fail and the
code returns the truncated string `"foo"`, not the original input. -/
theorem fmt_mmddyyyy_counterexample :
    fmt_mmddyyyy dateutil_fuzzy ("fooTbar") = "foo" ∧
      ¬ fmt_mmddyyyy dateutil_fuzzy ("fooTbar") = "fooTbar" := by decide

/-- C9 (amended): for a project name with at least one whitespace-delimited
token, the zone fallback returns the last token with ALL leading and
trailing commas stripped; the empty name yields the empty string. -/
theorem zone_from_project_amended :
    (∀ (s t : String) (ts : List String),
      pySplitWs s = ts ++ [t] → zone_from_project s = some (pyStripChars [','] t)) ∧
      zone_from_project ("") = some "" := by
  refine ⟨?_, rfl⟩
  intro s t ts h
  unfold zone_from_project
  by_cases hs : s = ""
  · subst hs
    rw [show pySplitWs "" = [] from rfl] at h
    simp at h
  · rw [if_neg hs, h, List.getLast?_concat]

/-- Witness for C9 at a concrete two-token project name. -/
theorem zone_from_project_amended_witness :
    zone_from_project ("Zone North") = some ("North") := by
  have h := zone_from_project_amended.1 ("Zone North") ("North") (["Zone"]) (by decide)
  have h2 : pyStripChars [','] ("North") = "North" := by decide
  rw [h2] at h
  exact h

/-- Counterexample for C9 as stated: Python `strip(",")` removes every
trailing comma, so a name ending in two commas loses both, where the claim
(exactly one trailing comma stripped) predicts one would remain. -/
theorem zone_from_project_counterexample :
    zone_from_project ("Zone Alpha,,") = some ("Alpha") ∧
      ¬ zone_from_project ("Zone Alpha,,") = some ("Alpha,") := by decide

/-- C10: every emitted record reports paid exactly when the extracted
paid flag is truthy or the extracted paid-date text is non-empty; in
particular a task with a falsy paid-flag field but a non-empty paid-date
field is reported as paid. -/
theorem paid_flag_or_date_spec :
    (∀ (fz : String → Option SDate) (fees : List (String × List (String × Rat)))
       (pname pz tt sec : String) (t : ATask),
      (mk_row fz fees pname pz tt sec t).paid =
        ((extract_fields t).paid_flag || (extract_fields t).paid_date != "")) ∧
    (mk_row dateutil_fuzzy [] ("P") ("Z") ("") ("S") taskPaid).paid = true ∧
    (extract_fields taskPaid).paid_flag = false := by
  refine ⟨?_, by decide, by decide⟩
  intro fz fees pname pz tt sec t
  unfold mk_row adjusted_cf
  dsimp only
  split_ifs <;> rfl

unseal Rat.add Rat.mul Rat.sub Rat.inv in
/-- C1 (amended): on the end-to-end scenario the pipeline emits exactly one
record, with zone `"(WO)"` (the last whitespace token of the project name
`"Zone North (WO)"`), type `"WO"`, client `"Acme"`, approved value 1000,
net approved value 900, profit 600 and logical status `"Scheduled"`. -/
theorem pipeline_end_to_end_amended :
    rowsC1.map (fun rs => rs.map Row.zone) = some ["(WO)"] ∧
    rowsC1.map (fun rs => rs.map Row.rtype) = some ["WO"] ∧
    rowsC1.map (fun rs => rs.map Row.client) = some ["Acme"] ∧
    rowsC1.map (fun rs => rs.map Row.approved_value) = some [(1000 : Rat)] ∧
    rowsC1.map (fun rs => rs.map Row.approved_real) = some [(900 : Rat)] ∧
    rowsC1.map (fun rs => rs.map Row.utilidad) = some [(600 : Rat)] ∧
    rowsC1.map (fun rs => rs.map Row.logical_status) = some ["Scheduled"] := by
  refine ⟨by decide, by decide, by decide, by decide, by decide, by decide, by decide⟩

unseal Rat.add Rat.mul Rat.sub Rat.inv in
/-- Counterexample for C1 as stated: the zone of the emitted record is
`"(WO)"` — `zone_from_project` takes the LAST whitespace-delimited token of
`"Zone North (WO)"` — not `"North"` as the claim asserts. -/
theorem pipeline_end_to_end_counterexample :
    rowsC1.map (fun rs => rs.map Row.zone) = some ["(WO)"] ∧
      ¬ rowsC1.map (fun rs => rs.map Row.zone) = some ["North"] := by
  refine ⟨by decide, by decide⟩
